import Mathlib

/-!
Verification development for the document-conversion backend
(`src/backend/app.py`): a Flask service that converts DOCX/PDF files by
delegating to LibreOffice, tracks per-job status in an in-memory dict
`conversion_status`, and serves results individually or as a ZIP archive.

The embedding is shallow: the job store is an association list, the
filesystem is the list of existing paths, the external LibreOffice
process is an oracle (`ExtEnv`) describing how the subprocess would
behave, and each HTTP handler is a pure function from its inputs and the
ambient state to a response together with the chronological sequence of
intermediate states (one state per mutation of the store / filesystem,
so that "at all times" properties can be stated).
-/

namespace FileConv

/-- Status values actually stored by the code: `'processing'`,
`'completed'`, `'error'` (the spec's Processing/Completed/Failed). -/
inductive JStatus
  | processing
  | completed
  | error
deriving DecidableEq, Repr

/-- A record of the `conversion_status` dict. The Python records are
dicts with varying keys; an absent key is `none` here.
`{'status': 'processing', 'progress': 0}` has only the first two keys,
`{'status': 'error', 'message': …}` has no progress, and a completed
record has `status`, `progress`, `output_file`, `original_name`. -/
structure Job where
  status : JStatus
  progress : Option Nat
  output_file : Option String
  original_name : Option String
  message : Option String
deriving DecidableEq, Repr

/-- The `conversion_status` dict: job id → record. -/
abbrev Store := List (String × Job)

/-- Dict lookup (`conversion_status[file_id]` / `file_id in conversion_status`). -/
def Store.get (s : Store) (id : String) : Option Job :=
  (s.find? (fun p => p.1 == id)).map Prod.snd

/-- Dict assignment `conversion_status[file_id] = job` (overwrites). -/
def Store.set (s : Store) (id : String) (j : Job) : Store :=
  (id, j) :: s.filter (fun p => p.1 != id)

/-- Server state: the job dict plus the set of existing file paths
(uploads, converted outputs). -/
structure St where
  jobs : Store
  fs : List String
deriving DecidableEq, Repr

/-! ### Python string/path helpers used by the code, modelled for ASCII -/

/-- Python `str.lower()` (ASCII). -/
def strLower (s : String) : String :=
  String.mk (s.toList.map Char.toLower)

/-- Python `str.endswith(t)`. -/
def strEndsWith (s t : String) : Bool :=
  t.toList.isSuffixOf s.toList

/-- Python whitespace for `str.split()`. -/
def pyWs (c : Char) : Bool :=
  c == ' ' || c == '\t' || c == '\n' || c == '\r' || c == '\x0b' || c == '\x0c'

/-- Python `str.split()` with no argument: split on runs of whitespace,
dropping empty pieces. -/
def splitWsAux : List Char → List Char → List String
  | [], acc => if acc.isEmpty then [] else [String.mk acc.reverse]
  | c :: cs, acc =>
    if pyWs c then
      if acc.isEmpty then splitWsAux cs []
      else String.mk acc.reverse :: splitWsAux cs []
    else splitWsAux cs (c :: acc)

def splitWs (s : String) : List String :=
  splitWsAux s.toList []

/-- `"_".join(parts)`. -/
def joinUnd : List String → String
  | [] => ""
  | [t] => t
  | t :: ts => t ++ "_" ++ joinUnd ts

/-- Characters kept by werkzeug's `_filename_ascii_strip_re`
(`[^A-Za-z0-9_.-]` is removed). -/
def sfAllowed (c : Char) : Bool :=
  c.isAlpha || c.isDigit || c == '_' || c == '.' || c == '-'

def dotUnd (c : Char) : Bool := c == '.' || c == '_'

/-- Werkzeug's `secure_filename`, modelled for ASCII filenames on a
POSIX host: NFKD normalization and the ascii encode/decode round trip
are the identity on ASCII input, `os.sep` is `'/'` and `os.path.altsep`
is `None`, and the Windows device-name branch does not apply. What
remains is: replace `'/'` by `' '`, `"_".join(filename.split())`,
strip the characters outside `[A-Za-z0-9_.-]`, then `.strip("._")`. -/
def secure_filename (s : String) : String :=
  let s1 := s.toList.map (fun c => if c == '/' then ' ' else c)
  let joined := joinUnd (splitWsAux s1 [])
  let kept := joined.toList.filter sfAllowed
  String.mk (((kept.dropWhile dotUnd).reverse.dropWhile dotUnd).reverse)

/-- `Path(p).name`: the last `/`-separated component. -/
def pathNameOf (p : String) : String :=
  String.mk ((p.toList.reverse.takeWhile (fun c => c != '/')).reverse)

/-- Index of the last `'.'` in a character list, if any. -/
def lastDotIndex (cs : List Char) : Option Nat :=
  match cs.reverse.findIdx? (fun c => c == '.') with
  | none => none
  | some r => some (cs.length - 1 - r)

/-- `Path(p).stem`: the final component without its suffix; the suffix
is nonempty only when the last dot of the name is at an interior
position (`0 < i < len(name) - 1`). -/
def pathStem (p : String) : String :=
  let name := pathNameOf p
  let cs := name.toList
  match lastDotIndex cs with
  | none => name
  | some k => if 0 < k ∧ k < cs.length - 1 then String.mk (cs.take k) else name

/-- `UPLOAD_FOLDER / f'{file_id}_{filename}'`. -/
def uploadsPath (fid filename : String) : String :=
  "uploads/" ++ fid ++ "_" ++ filename

/-- `CONVERTED_FOLDER / f'{file_id}_{stem}.{ext}'`. -/
def convertedPath (fid stem ext : String) : String :=
  "converted/" ++ fid ++ "_" ++ stem ++ "." ++ ext

/-! ### ConverterGateway: `convert_with_libreoffice` -/

/-- Oracle describing the external environment of one LibreOffice
invocation: whether `find_libreoffice` locates the binary, how long the
subprocess would run, its return code, and whether a run that completes
with return code 0 actually writes the expected output file. -/
structure ExtEnv where
  soffice : Option String
  procDuration : Nat
  procReturncode : Int
  producesOutput : Bool
deriving DecidableEq, Repr

/-- Outcome of `convert_with_libreoffice`: `ok p` is a returned path,
`failed` is a returned `None` (timeout, nonzero return code, missing
output, or other caught exception), `unavailable msg` is the raised
`FileNotFoundError` when LibreOffice is not found. -/
inductive ConvertResult
  | ok (path : String)
  | failed
  | unavailable (msg : String)
deriving DecidableEq, Repr

def libreNotFoundMsg : String :=
  "LibreOffice not found. Please install LibreOffice from https://www.libreoffice.org/download/"

/-- `convert_with_libreoffice(input_file, output_dir, output_format)`.
Returns the outcome and the filesystem after the call (the external
process writes `output_dir/{stem}.{format}` when it completes in time
with return code 0 and `producesOutput`; the code then checks
`converted_file.exists()`). `subprocess.run(..., timeout=60)` raises
`TimeoutExpired`, caught and turned into `None`, when the process needs
more than 60 time units. -/
def convert_with_libreoffice (env : ExtEnv) (fs : List String)
    (input_file output_dir output_format : String) : ConvertResult × List String :=
  match env.soffice with
  | none => (ConvertResult.unavailable libreNotFoundMsg, fs)
  | some _ =>
    if 60 < env.procDuration then
      (ConvertResult.failed, fs)
    else
      let converted := output_dir ++ "/" ++ pathStem input_file ++ "." ++ output_format
      let fs1 := if env.procReturncode = 0 ∧ env.producesOutput = true then converted :: fs else fs
      if env.procReturncode ≠ 0 then (ConvertResult.failed, fs1)
      else if fs1.contains converted then (ConvertResult.ok converted, fs1)
      else (ConvertResult.failed, fs1)

/-! ### Job records written by the handlers -/

/-- `{'status': 'processing', 'progress': 0}` -/
def procJob : Job := ⟨JStatus.processing, some 0, none, none, none⟩

/-- the in-place update `conversion_status[file_id]['progress'] = 30` -/
def procJob30 : Job := ⟨JStatus.processing, some 30, none, none, none⟩

/-- `{'status': 'error', 'message': msg}` -/
def failJob (msg : String) : Job := ⟨JStatus.error, none, none, none, some msg⟩

/-- `{'status': 'completed', 'progress': 100, 'output_file': out, 'original_name': dn}` -/
def doneJob (out dn : String) : Job := ⟨JStatus.completed, some 100, some out, some dn, none⟩

/-! ### Single-file handler: `convert_docx_to_pdf` -/

inductive Resp
  | badRequest (msg : String)
  | serverError (msg : String)
  | ok (file_id status original_name : String)
deriving DecidableEq, Repr

/-- The `POST /api/convert/docx-to-pdf` handler. `upload` is the
`file` field of the multipart request (`none` when absent), `fid` the
`uuid4` issued for this request. Returns the HTTP response, the list of
intermediate states after each mutation (in order), and the final
state. -/
def convert_docx_to_pdf (env : ExtEnv) (st : St) (upload : Option String)
    (fid : String) : Resp × List St × St :=
  match upload with
  | none => (Resp.badRequest "No file provided", [], st)
  | some fname =>
    if fname == "" then (Resp.badRequest "No file selected", [], st)
    else if !(strEndsWith (strLower fname) ".docx") then
      (Resp.badRequest "File must be a .docx document", [], st)
    else
      let st1 : St := ⟨Store.set st.jobs fid procJob, st.fs⟩
      let filename := secure_filename fname
      let input_path := uploadsPath fid filename
      let st2 : St := ⟨st1.jobs, input_path :: st1.fs⟩
      let st3 : St := ⟨Store.set st2.jobs fid procJob30, st2.fs⟩
      match convert_with_libreoffice env st3.fs input_path "converted" "pdf" with
      | (ConvertResult.unavailable msg, fs4) =>
        -- the raised FileNotFoundError reaches the outer `except`, which
        -- answers 500; the job is left as it was (still processing)
        (Resp.serverError msg, [st1, st2, st3, ⟨st3.jobs, fs4⟩], ⟨st3.jobs, fs4⟩)
      | (ConvertResult.failed, fs4) =>
        let st5 : St := ⟨Store.set st3.jobs fid (failJob "Conversion failed"), fs4⟩
        -- note: the staged input file is not unlinked on this path
        (Resp.serverError "Conversion failed", [st1, st2, st3, ⟨st3.jobs, fs4⟩, st5], st5)
      | (ConvertResult.ok out, fs4) =>
        let dn := pathStem filename ++ ".pdf"
        let final_output := convertedPath fid (pathStem filename) "pdf"
        let st5 : St := ⟨st3.jobs, final_output :: fs4.filter (fun q => q != out)⟩
        let st6 : St := ⟨Store.set st5.jobs fid (doneJob final_output dn), st5.fs⟩
        let st7 : St := ⟨st6.jobs, st6.fs.filter (fun q => q != input_path)⟩
        (Resp.ok fid "completed" dn, [st1, st2, st3, ⟨st3.jobs, fs4⟩, st5, st6, st7], st7)

/-! ### Batch handler: `convert_batch` -/

/-- One element of `request.files.getlist('files')`, together with the
`uuid4` that would be issued for it and the behaviour of its external
conversion process. -/
structure FileIn where
  filename : String
  fid : String
  env : ExtEnv
deriving DecidableEq, Repr

/-- One element of the `results` array: either
`{'filename': …, 'error': …}` or
`{'filename': …, 'file_id': …, 'status': 'completed', 'original_name': …}`. -/
inductive BatchEntry
  | err (filename reason : String)
  | ok (filename file_id original_name : String)
deriving DecidableEq, Repr

def BatchEntry.fname : BatchEntry → String
  | .err f _ => f
  | .ok f _ _ => f

/-- One iteration of the `for file in files` loop of `convert_batch`:
the appended result entry (if any), the intermediate states after each
mutation, and the state after the iteration. -/
def batchStep (direction : String) (st : St) (f : FileIn) :
    Option BatchEntry × List St × St :=
  if f.filename == "" then (none, [], st)
  else if direction == "docx-to-pdf" && !(strEndsWith (strLower f.filename) ".docx") then
    (some (BatchEntry.err f.filename "Invalid file type"), [], st)
  else if direction != "docx-to-pdf" && !(strEndsWith (strLower f.filename) ".pdf") then
    (some (BatchEntry.err f.filename "Invalid file type"), [], st)
  else
    let st1 : St := ⟨Store.set st.jobs f.fid procJob, st.fs⟩
    let filename := secure_filename f.filename
    let input_path := uploadsPath f.fid filename
    let st2 : St := ⟨st1.jobs, input_path :: st1.fs⟩
    let fmt := if direction == "docx-to-pdf" then "pdf" else "docx"
    match convert_with_libreoffice f.env st2.fs input_path "converted" fmt with
    | (ConvertResult.unavailable msg, fs3) =>
      -- caught by the per-file `except Exception as e`; the result entry
      -- records str(e), the job record is left at processing
      (some (BatchEntry.err f.filename msg), [st1, st2, ⟨st2.jobs, fs3⟩], ⟨st2.jobs, fs3⟩)
    | (ConvertResult.failed, fs3) =>
      -- `if not output_path: results.append(...); continue` — the job
      -- record in conversion_status is never updated on this path
      (some (BatchEntry.err f.filename "Conversion failed"),
        [st1, st2, ⟨st2.jobs, fs3⟩], ⟨st2.jobs, fs3⟩)
    | (ConvertResult.ok out, fs3) =>
      let dn := pathStem filename ++ "." ++ fmt
      let final_output := convertedPath f.fid (pathStem filename) fmt
      let st4 : St := ⟨st2.jobs, final_output :: fs3.filter (fun q => q != out)⟩
      let st5 : St := ⟨Store.set st4.jobs f.fid (doneJob final_output dn), st4.fs⟩
      let st6 : St := ⟨st5.jobs, st5.fs.filter (fun q => q != input_path)⟩
      (some (BatchEntry.ok f.filename f.fid dn),
        [st1, st2, ⟨st2.jobs, fs3⟩, st4, st5, st6], st6)

/-- The `for file in files` loop: accumulated `results`, all
intermediate states, final state. -/
def convert_batch_list (direction : String) (st : St) :
    List FileIn → List BatchEntry × List St × St
  | [] => ([], [], st)
  | f :: rest =>
    let r1 := batchStep direction st f
    let r2 := convert_batch_list direction r1.2.2 rest
    (r1.1.toList ++ r2.1, r1.2.1 ++ r2.2.1, r2.2.2)

inductive BatchResp
  | badRequest (msg : String)
  | results (entries : List BatchEntry)
deriving DecidableEq, Repr

/-- The `POST /api/convert/batch` handler. `files` is
`request.files.getlist('files')` (`none` when the `files` field is
absent), `direction` is `request.form.get('direction', 'docx-to-pdf')`
after defaulting. -/
def convert_batch (direction : String) (st : St) (files : Option (List FileIn)) :
    BatchResp × List St × St :=
  match files with
  | none => (BatchResp.badRequest "No files provided", [], st)
  | some fl =>
    let r := convert_batch_list direction st fl
    (BatchResp.results r.1, r.2.1, r.2.2)

/-! ### Download, bulk download, status -/

inductive DownloadResult
  | notFound                               -- 404 {'error': 'File not found'}
  | notReady                               -- 400 {'error': 'File not ready'}
  | fileResp (path download_name : String) -- send_file(path, download_name=…)
deriving DecidableEq, Repr

/-- The `GET /api/download/<file_id>` handler. A completed record
always carries `output_file` and `original_name` (every completed
record the code writes does; cf. `storeInv` below), so the
`Option.getD` on `original_name` is never exercised on reachable
stores. -/
def download_file (st : St) (fid : String) : DownloadResult :=
  match Store.get st.jobs fid with
  | none => DownloadResult.notFound
  | some j =>
    if !(j.status == JStatus.completed) then DownloadResult.notReady
    else
      match j.output_file with
      | none => DownloadResult.notFound
      | some out =>
        if st.fs.contains out then DownloadResult.fileResp out (j.original_name.getD "")
        else DownloadResult.notFound

/-- The body of the `for file_id in file_ids` ZIP loop for one job
record: the archive entry `(arcname, source path)` written by
`zipf.write(output_file, status['original_name'])`, if any. A completed
record always carries `output_file`/`original_name` on reachable stores
(cf. `storeInv`), so the wildcard row is never exercised there. -/
def jobZipEntry (fsList : List String) (j : Job) : Option (String × String) :=
  if j.status == JStatus.completed then
    match j.output_file, j.original_name with
    | some out, some dn => if fsList.contains out then some (dn, out) else none
    | _, _ => none
  else none

/-- The ZIP assembly loop of `download_bulk`: one candidate entry per
requested id, skipping unknown ids, non-completed jobs, and missing
artifacts. -/
def assembleEntries (st : St) (ids : List String) : List (String × String) :=
  ids.filterMap (fun id =>
    match Store.get st.jobs id with
    | some j => jobZipEntry st.fs j
    | none => none)

inductive BulkResult
  | badRequest (msg : String)                  -- 400 {'error': 'No files specified'}
  | archive (entries : List (String × String)) -- send_file of the written ZIP
deriving DecidableEq, Repr

/-- The `POST /api/download/bulk` handler, after the request body has
been parsed into `file_ids`. The transient ZIP file written under
`converted/` is represented by its list of entries. -/
def download_bulk (st : St) (file_ids : List String) : BulkResult :=
  if file_ids.isEmpty then BulkResult.badRequest "No files specified"
  else BulkResult.archive (assembleEntries st file_ids)

/-- The `GET /api/status/<file_id>` handler: the JSON answer (`none`
means 404 `{'error': 'File not found'}`) and the state afterwards. -/
def get_status (st : St) (fid : String) : Option Job × St :=
  (Store.get st.jobs fid, st)

/-- `n` successive polls of `GET /api/status/<file_id>`: the list of
answers and the state after all of them. -/
def get_status_iter (st : St) (fid : String) : Nat → List (Option Job) × St
  | 0 => ([], st)
  | Nat.succ n =>
    let r := get_status st fid
    let rest := get_status_iter r.2 fid n
    (r.1 :: rest.1, rest.2)

/-! ### The store invariant of claim C1 -/

/-- The `output_file` key is present on a record exactly when its
status is `'completed'`. -/
def jobRecordInv (j : Job) : Prop :=
  j.output_file.isSome = true ↔ j.status = JStatus.completed

instance (j : Job) : Decidable (jobRecordInv j) := by
  unfold jobRecordInv; infer_instance

/-- Every record of the store satisfies `jobRecordInv`. -/
def storeInv (s : Store) : Prop := ∀ e ∈ s, jobRecordInv e.2

/-- A requested id resolves to a Completed job with an existing output
artifact (the condition under which `download_bulk` includes it). -/
def validJob (st : St) (id : String) : Prop :=
  ∃ j, Store.get st.jobs id = some j ∧ j.status = JStatus.completed ∧
    ∃ out, j.output_file = some out ∧ out ∈ st.fs

/-! ### Concrete environments used in witnesses and counterexamples -/

/-- LibreOffice found, fast run, exit 0, output written. -/
def envAvailOk : ExtEnv := ⟨some "/usr/local/bin/soffice", 5, 0, true⟩

/-- LibreOffice found, fast run, exit code 1. -/
def envExitFail : ExtEnv := ⟨some "/usr/local/bin/soffice", 1, 1, true⟩

/-- LibreOffice found, process needs 100 > 60 time units. -/
def envTimeout : ExtEnv := ⟨some "/usr/local/bin/soffice", 100, 0, true⟩

/-- LibreOffice not found anywhere. -/
def envNoSoffice : ExtEnv := ⟨none, 1, 0, true⟩

/-! ### Helper lemmas -/

lemma storeInv_nil : storeInv [] := by
  intro e he
  simp at he

lemma storeInv_set (s : Store) (id : String) (j : Job) (h : storeInv s)
    (hj : jobRecordInv j) : storeInv (Store.set s id j) := by
  intro e he
  rcases List.mem_cons.mp he with rfl | he2
  · exact hj
  · exact h e (List.mem_of_mem_filter he2)

lemma jobRecordInv_procJob : jobRecordInv procJob := by decide

lemma jobRecordInv_procJob30 : jobRecordInv procJob30 := by decide

lemma jobRecordInv_failJob (msg : String) : jobRecordInv (failJob msg) := by
  unfold jobRecordInv failJob
  simp

lemma jobRecordInv_doneJob (out dn : String) : jobRecordInv (doneJob out dn) := by
  unfold jobRecordInv doneJob
  simp

lemma Store.get_set_self (s : Store) (id : String) (j : Job) :
    Store.get (Store.set s id j) id = some j := by
  unfold Store.get Store.set
  rw [List.find?_cons_of_pos]
  · rfl
  · simp

lemma Store.mem_of_get (s : Store) (id : String) (j : Job)
    (h : Store.get s id = some j) : (id, j) ∈ s := by
  unfold Store.get at h
  rcases hf : List.find? (fun p => p.1 == id) s with _ | p
  · rw [hf] at h
    cases h
  · rw [hf] at h
    have hm := List.mem_of_find?_eq_some hf
    have hp := List.find?_some hf
    obtain ⟨a, b⟩ := p
    simp only [Option.map_some'] at h
    obtain rfl : b = j := by injection h
    obtain rfl : a = id := by simpa using hp
    exact hm

lemma not_mem_filter_ne (a : String) (l : List String) :
    a ∉ l.filter (fun q => q != a) := by
  intro hmem
  have hp := List.of_mem_filter hmem
  simp at hp


lemma batchStep_inv (direction : String) (st : St) (f : FileIn) (h : storeInv st.jobs) :
    (∀ s ∈ (batchStep direction st f).2.1, storeInv s.jobs) ∧
      storeInv (batchStep direction st f).2.2.jobs := by
  unfold batchStep
  split
  · exact ⟨by simp, h⟩
  · split
    · exact ⟨by simp, h⟩
    · split
      · exact ⟨by simp, h⟩
      · dsimp only
        split
        · refine ⟨?_, ?_⟩
          · intro s hs
            simp only [List.mem_cons, List.not_mem_nil, or_false] at hs
            rcases hs with rfl | rfl | rfl
            · exact storeInv_set _ _ _ h jobRecordInv_procJob
            · exact storeInv_set _ _ _ h jobRecordInv_procJob
            · exact storeInv_set _ _ _ h jobRecordInv_procJob
          · exact storeInv_set _ _ _ h jobRecordInv_procJob
        · refine ⟨?_, ?_⟩
          · intro s hs
            simp only [List.mem_cons, List.not_mem_nil, or_false] at hs
            rcases hs with rfl | rfl | rfl
            · exact storeInv_set _ _ _ h jobRecordInv_procJob
            · exact storeInv_set _ _ _ h jobRecordInv_procJob
            · exact storeInv_set _ _ _ h jobRecordInv_procJob
          · exact storeInv_set _ _ _ h jobRecordInv_procJob
        · refine ⟨?_, ?_⟩
          · intro s hs
            simp only [List.mem_cons, List.not_mem_nil, or_false] at hs
            rcases hs with rfl | rfl | rfl | rfl | rfl | rfl
            · exact storeInv_set _ _ _ h jobRecordInv_procJob
            · exact storeInv_set _ _ _ h jobRecordInv_procJob
            · exact storeInv_set _ _ _ h jobRecordInv_procJob
            · exact storeInv_set _ _ _ h jobRecordInv_procJob
            · exact storeInv_set _ _ _ (storeInv_set _ _ _ h jobRecordInv_procJob) (jobRecordInv_doneJob _ _)
            · exact storeInv_set _ _ _ (storeInv_set _ _ _ h jobRecordInv_procJob) (jobRecordInv_doneJob _ _)
          · exact storeInv_set _ _ _ (storeInv_set _ _ _ h jobRecordInv_procJob) (jobRecordInv_doneJob _ _)



lemma cdp_inv (env : ExtEnv) (st : St) (upload : Option String) (fid : String)
    (h : storeInv st.jobs) :
    ∀ s ∈ (convert_docx_to_pdf env st upload fid).2.1, storeInv s.jobs := by
  unfold convert_docx_to_pdf
  split
  · simp
  · split
    · simp
    · split
      · simp
      · dsimp only
        split
        · intro s hs
          simp only [List.mem_cons, List.not_mem_nil, or_false] at hs
          rcases hs with rfl | rfl | rfl | rfl
          · exact storeInv_set _ _ _ h jobRecordInv_procJob
          · exact storeInv_set _ _ _ h jobRecordInv_procJob
          · exact storeInv_set _ _ _ (storeInv_set _ _ _ h jobRecordInv_procJob) jobRecordInv_procJob30
          · exact storeInv_set _ _ _ (storeInv_set _ _ _ h jobRecordInv_procJob) jobRecordInv_procJob30
        · intro s hs
          simp only [List.mem_cons, List.not_mem_nil, or_false] at hs
          rcases hs with rfl | rfl | rfl | rfl | rfl
          · exact storeInv_set _ _ _ h jobRecordInv_procJob
          · exact storeInv_set _ _ _ h jobRecordInv_procJob
          · exact storeInv_set _ _ _ (storeInv_set _ _ _ h jobRecordInv_procJob) jobRecordInv_procJob30
          · exact storeInv_set _ _ _ (storeInv_set _ _ _ h jobRecordInv_procJob) jobRecordInv_procJob30
          · exact storeInv_set _ _ _ (storeInv_set _ _ _ (storeInv_set _ _ _ h jobRecordInv_procJob) jobRecordInv_procJob30) (jobRecordInv_failJob _)
        · intro s hs
          simp only [List.mem_cons, List.not_mem_nil, or_false] at hs
          rcases hs with rfl | rfl | rfl | rfl | rfl | rfl | rfl
          · exact storeInv_set _ _ _ h jobRecordInv_procJob
          · exact storeInv_set _ _ _ h jobRecordInv_procJob
          · exact storeInv_set _ _ _ (storeInv_set _ _ _ h jobRecordInv_procJob) jobRecordInv_procJob30
          · exact storeInv_set _ _ _ (storeInv_set _ _ _ h jobRecordInv_procJob) jobRecordInv_procJob30
          · exact storeInv_set _ _ _ (storeInv_set _ _ _ h jobRecordInv_procJob) jobRecordInv_procJob30
          · exact storeInv_set _ _ _ (storeInv_set _ _ _ (storeInv_set _ _ _ h jobRecordInv_procJob) jobRecordInv_procJob30) (jobRecordInv_doneJob _ _)
          · exact storeInv_set _ _ _ (storeInv_set _ _ _ (storeInv_set _ _ _ h jobRecordInv_procJob) jobRecordInv_procJob30) (jobRecordInv_doneJob _ _)

lemma convert_batch_list_inv (direction : String) (files : List FileIn) :
    ∀ st : St, storeInv st.jobs →
      (∀ s ∈ (convert_batch_list direction st files).2.1, storeInv s.jobs) ∧
        storeInv (convert_batch_list direction st files).2.2.jobs := by
  induction files with
  | nil =>
    intro st h
    exact ⟨by simp [convert_batch_list], by simpa [convert_batch_list] using h⟩
  | cons f rest ih =>
    intro st h
    have hstep := batchStep_inv direction st f h
    have hrest := ih _ hstep.2
    constructor
    · intro s hs
      unfold convert_batch_list at hs
      dsimp only at hs
      rcases List.mem_append.mp hs with hs2 | hs2
      · exact hstep.1 s hs2
      · exact hrest.1 s hs2
    · unfold convert_batch_list
      dsimp only
      exact hrest.2



lemma convert_ok_eq (env : ExtEnv) (hso : env.soffice.isSome = true)
    (hd : ¬ 60 < env.procDuration) (hrc : env.procReturncode = 0)
    (hpo : env.producesOutput = true) (fs : List String) (i o f : String) :
    convert_with_libreoffice env fs i o f =
      (ConvertResult.ok (o ++ "/" ++ pathStem i ++ "." ++ f),
       (o ++ "/" ++ pathStem i ++ "." ++ f) :: fs) := by
  obtain ⟨p, hp⟩ := Option.isSome_iff_exists.mp hso
  unfold convert_with_libreoffice
  rw [hp]
  simp [hd, hrc, hpo, List.contains_cons]

lemma convert_failed_rc_eq (env : ExtEnv) (hso : env.soffice.isSome = true)
    (hd : ¬ 60 < env.procDuration) (hrc : env.procReturncode ≠ 0)
    (fs : List String) (i o f : String) :
    convert_with_libreoffice env fs i o f = (ConvertResult.failed, fs) := by
  obtain ⟨p, hp⟩ := Option.isSome_iff_exists.mp hso
  unfold convert_with_libreoffice
  rw [hp]
  dsimp only
  rw [if_neg hd, if_pos hrc, if_neg (fun hc => hrc hc.1)]

lemma cdp_ok_spec (env : ExtEnv) (st : St) (fname fid : String)
    (hso : env.soffice.isSome = true) (hd : ¬ 60 < env.procDuration)
    (hrc : env.procReturncode = 0) (hpo : env.producesOutput = true)
    (h1 : (fname == "") = false) (h2 : strEndsWith (strLower fname) ".docx" = true) :
    (convert_docx_to_pdf env st (some fname) fid).1 =
        Resp.ok fid "completed" (pathStem (secure_filename fname) ++ ".pdf") ∧
      Store.get (convert_docx_to_pdf env st (some fname) fid).2.2.jobs fid =
        some (doneJob (convertedPath fid (pathStem (secure_filename fname)) "pdf")
          (pathStem (secure_filename fname) ++ ".pdf")) ∧
      uploadsPath fid (secure_filename fname) ∉
        (convert_docx_to_pdf env st (some fname) fid).2.2.fs := by
  unfold convert_docx_to_pdf
  dsimp only
  rw [if_neg (by simp [h1]), if_neg (by simp [h2])]
  rw [convert_ok_eq env hso hd hrc hpo]
  exact ⟨rfl, Store.get_set_self _ _ _, not_mem_filter_ne _ _⟩

lemma cdp_failed_spec (env : ExtEnv) (st : St) (fname fid : String)
    (hso : env.soffice.isSome = true) (hd : ¬ 60 < env.procDuration)
    (hrc : env.procReturncode ≠ 0)
    (h1 : (fname == "") = false) (h2 : strEndsWith (strLower fname) ".docx" = true) :
    (convert_docx_to_pdf env st (some fname) fid).1 = Resp.serverError "Conversion failed" ∧
      Store.get (convert_docx_to_pdf env st (some fname) fid).2.2.jobs fid =
        some (failJob "Conversion failed") ∧
      uploadsPath fid (secure_filename fname) ∈
        (convert_docx_to_pdf env st (some fname) fid).2.2.fs := by
  unfold convert_docx_to_pdf
  dsimp only
  rw [if_neg (by simp [h1]), if_neg (by simp [h2])]
  rw [convert_failed_rc_eq env hso hd hrc]
  exact ⟨rfl, Store.get_set_self _ _ _, List.mem_cons_self _ _⟩



lemma batchStep_entry_none (direction : String) (st : St) (f : FileIn)
    (hf : f.filename = "") : (batchStep direction st f).1 = none := by
  unfold batchStep
  rw [if_pos (by simp [hf])]

lemma batchStep_entry_some (direction : String) (st : St) (f : FileIn)
    (hf : f.filename ≠ "") :
    ∃ e, (batchStep direction st f).1 = some e ∧ e.fname = f.filename := by
  unfold batchStep
  rw [if_neg (by simp [hf])]
  split
  · exact ⟨_, rfl, rfl⟩
  · split
    · exact ⟨_, rfl, rfl⟩
    · dsimp only
      split
      · exact ⟨_, rfl, rfl⟩
      · exact ⟨_, rfl, rfl⟩
      · exact ⟨_, rfl, rfl⟩



lemma convert_batch_list_fnames (direction : String) (files : List FileIn) :
    ∀ st : St,
      ((convert_batch_list direction st files).1.map BatchEntry.fname) =
        (files.filter (fun f => f.filename != "")).map FileIn.filename := by
  induction files with
  | nil => intro st; rfl
  | cons f rest ih =>
    intro st
    unfold convert_batch_list
    dsimp only
    by_cases hf : f.filename = ""
    · rw [batchStep_entry_none direction st f hf, List.filter_cons, if_neg (by simp [hf])]
      simpa using ih _
    · obtain ⟨e, he, hn⟩ := batchStep_entry_some direction st f hf
      rw [he, List.filter_cons, if_pos (by simp [hf])]
      simp [hn, ih _]



/-- C1 (confirmed): on every conversion path that mutates the job store
(the single-file DOCX→PDF handler and the batch handler), if every
record of the store has `output_file` present exactly when its status is
`'completed'`, then the same holds for every record of every
intermediate and final store state — records with status `'processing'`
or `'error'` never carry an output location, completed records always
do, at all times. -/
theorem C1_output_file_iff_completed (env : ExtEnv) (st : St) (upload : Option String)
    (fid direction : String) (files : Option (List FileIn)) (h : storeInv st.jobs) :
    (∀ s ∈ (convert_docx_to_pdf env st upload fid).2.1, storeInv s.jobs) ∧
      (∀ s ∈ (convert_batch direction st files).2.1, storeInv s.jobs) := by
  refine ⟨cdp_inv env st upload fid h, ?_⟩
  rcases files with _ | fl
  · simp [convert_batch]
  · intro s hs
    unfold convert_batch at hs
    dsimp only at hs
    exact (convert_batch_list_inv direction fl st h).1 s hs

/-- Witness for C1 at a concrete empty store, a successful single-file
conversion and a failing batch conversion. -/
theorem C1_output_file_iff_completed_witness :
    storeInv (St.mk [] []).jobs ∧
      ((∀ s ∈ (convert_docx_to_pdf envAvailOk ⟨[], []⟩ (some "a.docx") "id0").2.1,
          storeInv s.jobs) ∧
        (∀ s ∈ (convert_batch "docx-to-pdf" ⟨[], []⟩
            (some [⟨"b.docx", "id1", envExitFail⟩])).2.1, storeInv s.jobs)) :=
  ⟨storeInv_nil,
    C1_output_file_iff_completed envAvailOk ⟨[], []⟩ (some "a.docx") "id0" "docx-to-pdf"
      (some [⟨"b.docx", "id1", envExitFail⟩]) storeInv_nil⟩

/-- C2 (code bug): evaluation at the failing input. A batch request
with one `a.docx` file whose LibreOffice run exits nonzero reports an
inline `'Conversion failed'` error to the caller, yet the job record in
`conversion_status` is left as `{'status': 'processing', 'progress': 0}`
after the handler returns — the batch path never calls the store on its
failure path, contradicting the claim (and the single-file path, which
does mark the job `'error'`). -/
theorem C2_batch_failure_leaves_processing :
    (convert_batch "docx-to-pdf" ⟨[], []⟩ (some [⟨"a.docx", "id0", envExitFail⟩])).1 =
        BatchResp.results [BatchEntry.err "a.docx" "Conversion failed"] ∧
      Store.get (convert_batch "docx-to-pdf" ⟨[], []⟩
          (some [⟨"a.docx", "id0", envExitFail⟩])).2.2.jobs "id0" = some procJob ∧
      procJob.status = JStatus.processing := by decide

/-- C3 counterexample: a batch submission whose single input file has
an empty filename produces an empty results list — zero entries for one
input file, so the results are not in one-to-one correspondence with
the inputs (`if file.filename == '': continue` skips the file without
appending an entry). -/
theorem C3_skipped_empty_filename :
    ([(⟨"", "id0", envAvailOk⟩ : FileIn)].length = 1) ∧
      (convert_batch "docx-to-pdf" ⟨[], []⟩ (some [⟨"", "id0", envAvailOk⟩])).1 =
        BatchResp.results [] := ⟨rfl, rfl⟩

/-- C3 (corrected): the batch results list has exactly one entry per
input file with a NON-EMPTY filename, in the original submission order,
each entry (by the shape of `BatchEntry`) either job success metadata or
an inline error record carrying the filename and a reason; inputs with
an empty filename are silently skipped and get no entry. -/
theorem C3_one_entry_per_nonempty_input (direction : String) (st : St)
    (files : List FileIn) :
    (convert_batch direction st (some files)).1 =
        BatchResp.results (convert_batch_list direction st files).1 ∧
      ((convert_batch_list direction st files).1.map BatchEntry.fname) =
        (files.filter (fun f => f.filename != "")).map FileIn.filename :=
  ⟨rfl, convert_batch_list_fnames direction files st⟩

/-- C4 counterexample: a non-empty id list (`["deadbeef"]`) none of
whose ids resolves to anything (the store is empty) makes
`download_bulk` succeed with an empty archive instead of failing with a
`NoValidJobs` error. -/
theorem C4_empty_zip_returned :
    download_bulk ⟨[], []⟩ ["deadbeef"] = BulkResult.archive [] ∧
      (["deadbeef"] : List String) ≠ [] := ⟨rfl, by decide⟩

/-- C4 (corrected): for every non-empty list of requested identifiers
in which none resolves to a Completed job with an existing output
artifact, the bulk download does NOT fail: it succeeds and returns an
empty archive. (It fails with a 400 error only when the id list itself
is empty.) The store is assumed to satisfy the C1 record invariant, as
every reachable store does. -/
theorem C4_no_valid_jobs_empty_archive (st : St) (ids : List String)
    (hwf : storeInv st.jobs) (hne : ids ≠ [])
    (hnv : ∀ id ∈ ids, ¬ validJob st id) :
    download_bulk st ids = BulkResult.archive [] := by
  unfold download_bulk
  rw [if_neg (by simpa [List.isEmpty_iff] using hne)]
  refine congrArg BulkResult.archive (List.filterMap_eq_nil_iff.mpr ?_)
  intro id hid
  rcases hg : Store.get st.jobs id with _ | j
  · rfl
  · dsimp only
    unfold jobZipEntry
    by_cases hcs : j.status = JStatus.completed
    · rw [if_pos (by simp [hcs])]
      have hji := hwf _ (Store.mem_of_get _ _ _ hg)
      obtain ⟨out, hout⟩ := Option.isSome_iff_exists.mp (hji.mpr hcs)
      rw [hout]
      rcases hon : j.original_name with _ | dn
      · rfl
      · by_cases hctn : st.fs.contains out = true
        · exact absurd ⟨j, hg, hcs, out, hout, List.mem_of_elem_eq_true hctn⟩ (hnv id hid)
        · dsimp only
          rw [if_neg hctn]
    · rw [if_neg (by simp [hcs])]

/-- Witness for C4 (corrected) at an empty store and one unknown id. -/
theorem C4_no_valid_jobs_empty_archive_witness :
    download_bulk ⟨[], []⟩ ["deadbeef"] = BulkResult.archive [] :=
  C4_no_valid_jobs_empty_archive ⟨[], []⟩ ["deadbeef"] storeInv_nil (by decide)
    (by
      intro id hid hv
      obtain ⟨j, hg, _⟩ := hv
      simp [Store.get] at hg)



/-- C5 (confirmed): a bulk-download request for `[completedId,
unknownId, failedId]`, where the completed job's artifact exists,
succeeds without error and the archive contains exactly one entry: the
completed job's artifact stored under its `original_name` display
name. -/
theorem C5_bulk_best_effort (st : St) (cid uid fid2 out dn : String) (jc jf : Job)
    (hc : Store.get st.jobs cid = some jc)
    (hcs : jc.status = JStatus.completed)
    (hco : jc.output_file = some out)
    (hcn : jc.original_name = some dn)
    (hfs : st.fs.contains out = true)
    (hu : Store.get st.jobs uid = none)
    (hf : Store.get st.jobs fid2 = some jf)
    (hfst : jf.status = JStatus.error) :
    download_bulk st [cid, uid, fid2] = BulkResult.archive [(dn, out)] := by
  unfold download_bulk
  rw [if_neg (by simp)]
  unfold assembleEntries
  simp only [List.filterMap_cons, List.filterMap_nil, hc, hu, hf]
  unfold jobZipEntry
  rw [if_pos (by simp [hcs]), if_neg (by simp [hfst])]
  rw [hco, hcn]
  dsimp only
  rw [if_pos hfs]

def stWitC5 : St :=
  ⟨[("c", doneJob "converted/c_a.pdf" "a.pdf"), ("f", failJob "Conversion failed")],
    ["converted/c_a.pdf"]⟩

/-- Witness for C5 at a concrete store with one completed and one
failed job. -/
theorem C5_bulk_best_effort_witness :
    download_bulk stWitC5 ["c", "u", "f"] =
      BulkResult.archive [("a.pdf", "converted/c_a.pdf")] :=
  C5_bulk_best_effort stWitC5 "c" "u" "f" "converted/c_a.pdf" "a.pdf"
    (doneJob "converted/c_a.pdf" "a.pdf") (failJob "Conversion failed")
    (by decide) rfl rfl rfl (by decide) (by decide) (by decide) rfl



/-- C6 counterexample: a run whose external process exceeds the
60-unit bound and a run whose process exits nonzero produce IDENTICAL
outcomes (`None`, embedded as `ConvertResult.failed`): the gateway does
not distinguish a timeout from an ordinary conversion failure, contrary
to the claim that the outcome separates three failure modes. -/
theorem C6_timeout_not_distinguished :
    60 < envTimeout.procDuration ∧ envExitFail.procReturncode ≠ 0 ∧
      ¬ 60 < envExitFail.procDuration ∧
      convert_with_libreoffice envTimeout [] "uploads/x.docx" "converted" "pdf" =
        convert_with_libreoffice envExitFail [] "uploads/x.docx" "converted" "pdf" ∧
      (convert_with_libreoffice envTimeout [] "uploads/x.docx" "converted" "pdf").1 =
        ConvertResult.failed := by decide

/-- C6 (corrected): the gateway distinguishes only TWO failure modes:
a missing LibreOffice binary raises `FileNotFoundError`
(`ConvertResult.unavailable`, never equal to a `None` return), while a
timeout beyond the bounded wait of 60 time units, a nonzero process
outcome, and a missing output artifact all yield the same `None`
outcome (`ConvertResult.failed`). -/
theorem C6_two_failure_modes (env : ExtEnv) (fs : List String) (i o f : String) :
    (env.soffice = none →
        convert_with_libreoffice env fs i o f =
          (ConvertResult.unavailable libreNotFoundMsg, fs)) ∧
      (env.soffice.isSome = true → 60 < env.procDuration →
        (convert_with_libreoffice env fs i o f).1 = ConvertResult.failed) ∧
      (env.soffice.isSome = true → ¬ 60 < env.procDuration → env.procReturncode ≠ 0 →
        (convert_with_libreoffice env fs i o f).1 = ConvertResult.failed) ∧
      (env.soffice.isSome = true → ¬ 60 < env.procDuration → env.procReturncode = 0 →
        env.producesOutput = false →
        fs.contains (o ++ "/" ++ pathStem i ++ "." ++ f) = false →
        (convert_with_libreoffice env fs i o f).1 = ConvertResult.failed) ∧
      (∀ m, ConvertResult.unavailable m ≠ ConvertResult.failed) := by
  refine ⟨?_, ?_, ?_, ?_, fun m h => by cases h⟩
  · intro hn
    unfold convert_with_libreoffice
    rw [hn]
  · intro hso hd
    obtain ⟨p, hp⟩ := Option.isSome_iff_exists.mp hso
    unfold convert_with_libreoffice
    rw [hp]
    dsimp only
    rw [if_pos hd]
  · intro hso hd hrc
    rw [convert_failed_rc_eq env hso hd hrc]
  · intro hso hd hrc hpo hcn
    obtain ⟨p, hp⟩ := Option.isSome_iff_exists.mp hso
    have hmem : (o ++ "/" ++ pathStem i ++ "." ++ f) ∉ fs := by simpa using hcn
    unfold convert_with_libreoffice
    rw [hp]
    simp [hd, hrc, hpo, hmem]

/-- Witness for C6 (corrected) at four concrete environments, one per
failure condition. -/
theorem C6_two_failure_modes_witness :
    convert_with_libreoffice envNoSoffice [] "uploads/x.docx" "converted" "pdf" =
        (ConvertResult.unavailable libreNotFoundMsg, []) ∧
      (convert_with_libreoffice envTimeout [] "uploads/x.docx" "converted" "pdf").1 =
        ConvertResult.failed ∧
      (convert_with_libreoffice envExitFail [] "uploads/x.docx" "converted" "pdf").1 =
        ConvertResult.failed ∧
      (convert_with_libreoffice ⟨some "/usr/local/bin/soffice", 1, 0, false⟩ []
          "uploads/x.docx" "converted" "pdf").1 = ConvertResult.failed :=
  ⟨(C6_two_failure_modes envNoSoffice [] "uploads/x.docx" "converted" "pdf").1 rfl,
    (C6_two_failure_modes envTimeout [] "uploads/x.docx" "converted" "pdf").2.1 rfl
      (by decide),
    (C6_two_failure_modes envExitFail [] "uploads/x.docx" "converted" "pdf").2.2.1 rfl
      (by decide) (by decide),
    (C6_two_failure_modes ⟨some "/usr/local/bin/soffice", 1, 0, false⟩ []
        "uploads/x.docx" "converted" "pdf").2.2.2.1 rfl (by decide) rfl rfl (by decide)⟩



/-- C7 counterexample: uploading `a b.docx` (successful conversion)
records and offers at download the display name `a_b.pdf`, whereas the
claim demands the original basename stem plus `.pdf`, i.e. `a b.pdf`:
`secure_filename` replaces the space by an underscore before the stem
is taken. -/
theorem C7_display_name_mangled :
    (convert_docx_to_pdf envAvailOk ⟨[], []⟩ (some "a b.docx") "id0").1 =
        Resp.ok "id0" "completed" "a_b.pdf" ∧
      download_file (convert_docx_to_pdf envAvailOk ⟨[], []⟩ (some "a b.docx") "id0").2.2
          "id0" =
        DownloadResult.fileResp "converted/id0_a_b.pdf" "a_b.pdf" ∧
      pathStem "a b.docx" ++ ".pdf" = "a b.pdf" ∧
      ("a_b.pdf" : String) ≠ "a b.pdf" := by decide

/-- C7 (corrected): for every successful DOCX→PDF single-file
conversion with uploaded filename F, the recorded display name equals
the stem of the SANITIZED filename `secure_filename(F)` followed by
`.pdf` (which equals the original stem only when sanitization leaves
the basename unchanged). -/
theorem C7_display_name_sanitized_stem (env : ExtEnv) (st : St) (fname fid : String)
    (hso : env.soffice.isSome = true) (hd : ¬ 60 < env.procDuration)
    (hrc : env.procReturncode = 0) (hpo : env.producesOutput = true)
    (h1 : (fname == "") = false) (h2 : strEndsWith (strLower fname) ".docx" = true) :
    (convert_docx_to_pdf env st (some fname) fid).1 =
        Resp.ok fid "completed" (pathStem (secure_filename fname) ++ ".pdf") ∧
      Store.get (convert_docx_to_pdf env st (some fname) fid).2.2.jobs fid =
        some (doneJob (convertedPath fid (pathStem (secure_filename fname)) "pdf")
          (pathStem (secure_filename fname) ++ ".pdf")) :=
  ⟨(cdp_ok_spec env st fname fid hso hd hrc hpo h1 h2).1,
    (cdp_ok_spec env st fname fid hso hd hrc hpo h1 h2).2.1⟩

/-- Witness for C7 (corrected) at a concrete successful conversion of
`a.docx`. -/
theorem C7_display_name_sanitized_stem_witness :
    (convert_docx_to_pdf envAvailOk ⟨[], []⟩ (some "a.docx") "id0").1 =
        Resp.ok "id0" "completed" (pathStem (secure_filename "a.docx") ++ ".pdf") ∧
      Store.get (convert_docx_to_pdf envAvailOk ⟨[], []⟩ (some "a.docx") "id0").2.2.jobs
          "id0" =
        some (doneJob (convertedPath "id0" (pathStem (secure_filename "a.docx")) "pdf")
          (pathStem (secure_filename "a.docx") ++ ".pdf")) :=
  C7_display_name_sanitized_stem envAvailOk ⟨[], []⟩ "a.docx" "id0" rfl (by decide) rfl rfl
    (by decide) (by decide)

/-- C8 (confirmed): for a job id bound to a record in a terminal state
(completed or error), any number `n` of repeated status queries all
return the identical record, and the queries leave the job store (and
filesystem) exactly as they were — `get_status` performs no mutation. -/
theorem C8_status_idempotent (st : St) (fid : String) (j : Job) (n : Nat)
    (hg : Store.get st.jobs fid = some j)
    (_hterm : j.status = JStatus.completed ∨ j.status = JStatus.error) :
    (get_status_iter st fid n).2 = st ∧
      ∀ r ∈ (get_status_iter st fid n).1, r = some j := by
  induction n with
  | zero =>
    refine ⟨rfl, ?_⟩
    intro r hr
    simp [get_status_iter] at hr
  | succ n ih =>
    refine ⟨ih.1, ?_⟩
    intro r hr
    unfold get_status_iter at hr
    dsimp only [get_status] at hr
    rcases List.mem_cons.mp hr with rfl | hr2
    · exact hg
    · exact ih.2 r hr2

def stWitC8 : St := ⟨[("t", doneJob "converted/t_x.pdf" "x.pdf")], ["converted/t_x.pdf"]⟩

/-- Witness for C8 at a concrete store and three repeated polls. -/
theorem C8_status_idempotent_witness :
    (get_status_iter stWitC8 "t" 3).2 = stWitC8 ∧
      ∀ r ∈ (get_status_iter stWitC8 "t" 3).1,
        r = some (doneJob "converted/t_x.pdf" "x.pdf") :=
  C8_status_idempotent stWitC8 "t" (doneJob "converted/t_x.pdf" "x.pdf") 3 (by decide)
    (Or.inl rfl)



/-- C9 counterexample: a single-file conversion whose LibreOffice run
exits nonzero reaches the terminal `'error'` state, yet the staged
upload `uploads/id0_a.docx` is still present in the filesystem — the
failure path returns before `input_path.unlink()`. -/
theorem C9_failed_job_keeps_staged_input :
    Store.get (convert_docx_to_pdf envExitFail ⟨[], []⟩ (some "a.docx") "id0").2.2.jobs
        "id0" = some (failJob "Conversion failed") ∧
      (failJob "Conversion failed").status = JStatus.error ∧
      "uploads/id0_a.docx" ∈
        (convert_docx_to_pdf envExitFail ⟨[], []⟩ (some "a.docx") "id0").2.2.fs := by
  decide

/-- C9 (corrected): the staged input file is removed by the time the
job reaches a terminal state ONLY when the outcome is Completed; when
the conversion fails, the job reaches terminal `'error'` with the
staged input file still present. -/
theorem C9_staged_input_removed_only_on_success (env env2 : ExtEnv) (st st2 : St)
    (fname fname2 fid fid2 : String)
    (hso : env.soffice.isSome = true) (hd : ¬ 60 < env.procDuration)
    (hrc : env.procReturncode = 0) (hpo : env.producesOutput = true)
    (h1 : (fname == "") = false) (h2 : strEndsWith (strLower fname) ".docx" = true)
    (hso2 : env2.soffice.isSome = true) (hd2 : ¬ 60 < env2.procDuration)
    (hrc2 : env2.procReturncode ≠ 0)
    (h12 : (fname2 == "") = false) (h22 : strEndsWith (strLower fname2) ".docx" = true) :
    (Store.get (convert_docx_to_pdf env st (some fname) fid).2.2.jobs fid =
        some (doneJob (convertedPath fid (pathStem (secure_filename fname)) "pdf")
          (pathStem (secure_filename fname) ++ ".pdf")) ∧
      uploadsPath fid (secure_filename fname) ∉
        (convert_docx_to_pdf env st (some fname) fid).2.2.fs) ∧
      (Store.get (convert_docx_to_pdf env2 st2 (some fname2) fid2).2.2.jobs fid2 =
          some (failJob "Conversion failed") ∧
        uploadsPath fid2 (secure_filename fname2) ∈
          (convert_docx_to_pdf env2 st2 (some fname2) fid2).2.2.fs) :=
  ⟨⟨(cdp_ok_spec env st fname fid hso hd hrc hpo h1 h2).2.1,
      (cdp_ok_spec env st fname fid hso hd hrc hpo h1 h2).2.2⟩,
    ⟨(cdp_failed_spec env2 st2 fname2 fid2 hso2 hd2 hrc2 h12 h22).2.1,
      (cdp_failed_spec env2 st2 fname2 fid2 hso2 hd2 hrc2 h12 h22).2.2⟩⟩

/-- Witness for C9 (corrected): a concrete successful run of `a.docx`
and a concrete failing run of `b.docx`. -/
theorem C9_staged_input_removed_only_on_success_witness :
    (Store.get (convert_docx_to_pdf envAvailOk ⟨[], []⟩ (some "a.docx") "id0").2.2.jobs
        "id0" =
        some (doneJob (convertedPath "id0" (pathStem (secure_filename "a.docx")) "pdf")
          (pathStem (secure_filename "a.docx") ++ ".pdf")) ∧
      uploadsPath "id0" (secure_filename "a.docx") ∉
        (convert_docx_to_pdf envAvailOk ⟨[], []⟩ (some "a.docx") "id0").2.2.fs) ∧
      (Store.get (convert_docx_to_pdf envExitFail ⟨[], []⟩ (some "b.docx") "id1").2.2.jobs
          "id1" = some (failJob "Conversion failed") ∧
        uploadsPath "id1" (secure_filename "b.docx") ∈
          (convert_docx_to_pdf envExitFail ⟨[], []⟩ (some "b.docx") "id1").2.2.fs) :=
  C9_staged_input_removed_only_on_success envAvailOk envExitFail ⟨[], []⟩ ⟨[], []⟩
    "a.docx" "b.docx" "id0" "id1" rfl (by decide) rfl rfl (by decide) (by decide) rfl
    (by decide) (by decide) (by decide) (by decide)

/-- C10 (confirmed): a download request for a known job whose status
is completed but whose recorded output artifact no longer exists on
disk returns the 404 not-found response — the same response as for an
unknown identifier, and not the 400 not-ready response and not a
success. -/
theorem C10_missing_artifact_is_404 (st : St) (fid : String) (j : Job) (out : String)
    (hg : Store.get st.jobs fid = some j)
    (hs : j.status = JStatus.completed)
    (ho : j.output_file = some out)
    (hmiss : st.fs.contains out = false) :
    download_file st fid = DownloadResult.notFound ∧
      DownloadResult.notFound ≠ DownloadResult.notReady ∧
      ∀ (st2 : St) (fid2 : String), Store.get st2.jobs fid2 = none →
        download_file st2 fid2 = DownloadResult.notFound := by
  refine ⟨?_, ?_, ?_⟩
  · unfold download_file
    rw [hg]
    dsimp only
    rw [if_neg (by simp [hs]), ho]
    dsimp only
    rw [if_neg (by simpa using hmiss)]
  · intro h
    cases h
  · intro st2 fid2 h2
    unfold download_file
    rw [h2]

def stWitC10 : St := ⟨[("c", doneJob "converted/c_a.pdf" "a.pdf")], []⟩

/-- Witness for C10 at a concrete store whose completed job's
artifact is absent from the filesystem. -/
theorem C10_missing_artifact_is_404_witness :
    download_file stWitC10 "c" = DownloadResult.notFound ∧
      DownloadResult.notFound ≠ DownloadResult.notReady ∧
      ∀ (st2 : St) (fid2 : String), Store.get st2.jobs fid2 = none →
        download_file st2 fid2 = DownloadResult.notFound :=
  C10_missing_artifact_is_404 stWitC10 "c" (doneJob "converted/c_a.pdf" "a.pdf")
    "converted/c_a.pdf" (by decide) rfl rfl (by decide)


end FileConv
